import Mathlib

/-
Shallow embedding of src/src/main.rs (the attyvo daemon manager).

The program manipulates a single base directory PIPE_DIR = /tmp/daemon_pipes.
Every path the program touches is PIPE_DIR/<file name>; the constant prefix is
elided and the filesystem is modelled as the contents of that one directory:
a list of (entry name, entry kind) pairs.  Directory-entry names may be
invalid UTF-8 (OsStr.invalid), which matters for list_daemons.  FIFO kernel
buffers are modelled as a String carried by the fifo entry kind.  OS calls
that can fail for environmental reasons (mkdir, mkfifo, open, read, write,
unlink, daemonize, pty, spawn) consult failure oracles in an Env record;
signal delivery consults Env.alive.  A trace of events records signals sent,
files opened (with their modes), FIFOs created, the PID file write and the
child spawn, so that ordering claims are statable.
-/

namespace Attyvo

inductive OsStr where
  | valid (s : String)
  | invalid (id : Nat)
deriving DecidableEq

inductive EntryKind where
  | file (content : String)
  | fifo (buf : String)
  | dir
deriving DecidableEq

structure OpenMode where
  canRead : Bool
  canWrite : Bool
  append : Bool
  nonblock : Bool
deriving DecidableEq

inductive Ev where
  | mkdirDone
  | fifoCreated (p : String)
  | opened (p : String) (m : OpenMode)
  | pidWritten (p : String) (pid : Int)
  | signaled (pid : Int) (signal : Int)
  | spawned (command : String) (args : List String)
  | removed (p : String)
deriving DecidableEq

inductive Err where
  | pidFileMissing (p : String)
  | parseIntError
  | notRunning (name : String)
  | ioError (p : String)
  | alreadyExists (p : String)
  | panicked
deriving DecidableEq

structure St where
  dirExists : Bool
  entries : List (OsStr × EntryKind)
  trace : List Ev
deriving DecidableEq

structure Env where
  alive : Int → Bool
  mkdirFails : Bool
  mkfifoFails : String → Bool
  openFails : String → Bool
  readFifoFails : String → Bool
  writeFails : String → String → Bool
  removeFails : String → Bool
  daemonizeFails : Bool
  ptyFails : Bool
  spawnFails : Bool
  daemonPid : Int

def M (α : Type) : Type := Env → St → Except Err α × St

def M.pure {α : Type} (a : α) : M α := fun _ s => (.ok a, s)

def M.throw {α : Type} (e : Err) : M α := fun _ s => (.error e, s)

def M.bind {α β : Type} (x : M α) (f : α → M β) : M β := fun env s =>
  match x env s with
  | (.ok a, s1) => f a env s1
  | (.error e, s1) => (.error e, s1)

def findEntry : List (OsStr × EntryKind) → OsStr → Option EntryKind
  | [], _ => none
  | (q, k) :: rest, p => if q = p then some k else findEntry rest p

def setEntry : List (OsStr × EntryKind) → OsStr → EntryKind → List (OsStr × EntryKind)
  | [], p, k => [(p, k)]
  | (q, k0) :: rest, p, k =>
    if q = p then (p, k) :: rest else (q, k0) :: setEntry rest p k

def removeEntry : List (OsStr × EntryKind) → OsStr → List (OsStr × EntryKind)
  | [], _ => []
  | (q, k) :: rest, p =>
    if q = p then removeEntry rest p else (q, k) :: removeEntry rest p

def emitEv (e : Ev) (s : St) : St := { s with trace := s.trace ++ [e] }

/-- PathBuf::exists - the path exists (any entry kind) inside the base dir. -/
def pathExistsB (s : St) (p : String) : Bool :=
  s.dirExists && (findEntry s.entries (.valid p)).isSome

def PIPE_DIR : String := "/tmp/daemon_pipes"

def pid_file_path (name : String) : String := name ++ ".pid"

def stdin_path (name : String) : String := name ++ "_stdin"

def stdout_path (name : String) : String := name ++ "_stdout"

def stderr_path (name : String) : String := name ++ "_stderr"

/-- std::fs::create_dir_all(PIPE_DIR): no-op when the dir exists, otherwise
creates it unless the environment makes mkdir fail. -/
def create_dir_all : M Unit := fun env s =>
  if s.dirExists then (.ok (), s)
  else if env.mkdirFails then (.error (.ioError PIPE_DIR), s)
  else (.ok (), emitEv .mkdirDone { s with dirExists := true })

/-- interprocess create_fifo(path, 0o777): fails when the base dir is absent,
when an entry already exists at the path (EEXIST), or by oracle. -/
def create_fifo (p : String) : M Unit := fun env s =>
  if !s.dirExists then (.error (.ioError p), s)
  else if (findEntry s.entries (.valid p)).isSome then (.error (.alreadyExists p), s)
  else if env.mkfifoFails p then (.error (.ioError p), s)
  else (.ok (), emitEv (.fifoCreated p) { s with entries := s.entries ++ [(.valid p, .fifo "")] })

/-- File::options()....open(path): requires the entry to exist; records the
requested access mode in the trace; the returned handle is the path. -/
def openFile (p : String) (m : OpenMode) : M String := fun env s =>
  if !s.dirExists then (.error (.ioError p), s)
  else
    match findEntry s.entries (.valid p) with
    | none => (.error (.ioError p), s)
    | some _ =>
      if env.openFails p then (.error (.ioError p), s)
      else (.ok p, emitEv (.opened p m) s)

/-- std::fs::read_to_string(path) for a regular file.  Reading a non-regular
entry is modelled as an I/O error (reading a FIFO would block; blocking is
outside the model, and the program only reads regular files on this path). -/
def read_to_string (p : String) : M String := fun _ s =>
  if !s.dirExists then (.error (.ioError p), s)
  else
    match findEntry s.entries (.valid p) with
    | some (.file c) => (.ok c, s)
    | _ => (.error (.ioError p), s)

/-- File::write_all on an open FIFO handle: appends the bytes to the FIFO
buffer; failure by oracle (indexed by path and payload, so the two write_all
calls of write() can fail independently).  The stdin endpoint is a FIFO in
every reachable state; writing to other entry kinds is not modelled. -/
def write_all (p data : String) : M Unit := fun env s =>
  if env.writeFails p data then (.error (.ioError p), s)
  else
    match findEntry s.entries (.valid p) with
    | some (.fifo buf) => (.ok (), { s with entries := setEntry s.entries (.valid p) (.fifo (buf ++ data)) })
    | _ => (.error (.ioError p), s)

/-- libc::kill(pid, sig): returns whether the call succeeded (process exists);
delivery itself never changes the modelled filesystem. -/
def raw_kill (pid sig : Int) : M Bool := fun env s =>
  (.ok (env.alive pid), emitEv (.signaled pid sig) s)

/-- std::fs::remove_file(path): unlink; errors when the entry is absent or a
directory, or by oracle. -/
def remove_file (p : String) : M Unit := fun env s =>
  if !s.dirExists then (.error (.ioError p), s)
  else
    match findEntry s.entries (.valid p) with
    | none => (.error (.ioError p), s)
    | some .dir => (.error (.ioError p), s)
    | some _ =>
      if env.removeFails p then (.error (.ioError p), s)
      else (.ok (), emitEv (.removed p) { s with entries := removeEntry s.entries (.valid p) })

/-- Digit-string value: all chars are ASCII digits (at least one). -/
def digitsVal : List Char → Option Nat
  | [] => none
  | cs =>
    if cs.all (fun c => c.isDigit) then
      some (cs.foldl (fun a c => a * 10 + (c.toNat - 48)) 0)
    else none

/-- ASCII whitespace as trimmed by Rust str::trim (the Unicode extras never
occur in PID files, which hold only digits and a newline). -/
def isWsChar (c : Char) : Bool :=
  c = ' ' || c = '\t' || c = '\n' || c = '\r' || c = '\x0b' || c = '\x0c'

/-- Rust str::trim on the character list. -/
def trimChars (l : List Char) : List Char :=
  ((l.dropWhile isWsChar).reverse.dropWhile isWsChar).reverse

/-- Rust str::trim().parse::<i32>(): trim whitespace, optional sign, decimal
digits, i32 range check. -/
def parseI32 (str : String) : Option Int :=
  match trimChars str.data with
  | '+' :: rest =>
    match digitsVal rest with
    | some n => if n ≤ 2147483647 then some (Int.ofNat n) else none
    | none => none
  | '-' :: rest =>
    match digitsVal rest with
    | some n => if n ≤ 2147483648 then some (-(Int.ofNat n)) else none
    | none => none
  | other =>
    match digitsVal other with
    | some n => if n ≤ 2147483647 then some (Int.ofNat n) else none
    | none => none

/-- Rust str::replace: replace every non-overlapping occurrence of pat,
scanning left to right.  Faithful for nonempty patterns (the program only
uses the pattern ".pid").  The fuel argument makes the recursion structural;
each step consumes at least one character, so fuel = input length suffices. -/
def rustReplaceAux (pat rep : List Char) : Nat → List Char → List Char
  | _, [] => []
  | 0, l => l
  | fuel + 1, c :: cs =>
    if pat ≠ [] ∧ pat.isPrefixOf (c :: cs) then
      rep ++ rustReplaceAux pat rep fuel (List.drop (pat.length - 1) cs)
    else
      c :: rustReplaceAux pat rep fuel cs

def rustReplace (s pat rep : String) : String :=
  ⟨rustReplaceAux pat.data rep.data s.data.length s.data⟩

/-- Rust str::ends_with. -/
def strEndsWith (s suffix : String) : Bool :=
  suffix.data.isSuffixOf s.data

/-- fn ensure_pipe_dir_exists. -/
def ensure_pipe_dir_exists : M Unit := create_dir_all

/-- fn create_files: ensure the dir, then mkfifo stdin, stdout, stderr. -/
def create_files (name : String) : M Unit :=
  M.bind ensure_pipe_dir_exists fun _ =>
  M.bind (create_fifo (stdin_path name)) fun _ =>
  M.bind (create_fifo (stdout_path name)) fun _ =>
  M.bind (create_fifo (stderr_path name)) fun _ =>
  M.pure ()

/-- fn get_files: daemon-side opens - stdin read+write, stdout and stderr
read+write+append. -/
def get_files (name : String) : M (String × String × String) :=
  M.bind (openFile (stdin_path name) ⟨true, true, false, false⟩) fun fin =>
  M.bind (openFile (stdout_path name) ⟨true, true, true, false⟩) fun fout =>
  M.bind (openFile (stderr_path name) ⟨true, true, true, false⟩) fun ferr =>
  M.pure (fin, fout, ferr)

/-- Daemon::new().pid_file(path, Some(false)).work_dir(".").start(): the
daemonize primitive writes the new PID to the pid file. -/
def daemonize_start (pidPath : String) : M Unit := fun env s =>
  if env.daemonizeFails then (.error (.ioError pidPath), s)
  else if !s.dirExists then (.error (.ioError pidPath), s)
  else (.ok (), emitEv (.pidWritten pidPath env.daemonPid)
        { s with entries := setEntry s.entries (.valid pidPath) (.file (toString env.daemonPid)) })

/-- pty_process::blocking::open() + resize: no filesystem effect. -/
def pty_open : M Unit := fun env s =>
  if env.ptyFails then (.error (.ioError "pty"), s) else (.ok (), s)

/-- pty_process Command::new(command).args(args)....spawn(pts). -/
def spawn_child (command : String) (args : List String) : M Unit := fun env s =>
  if env.spawnFails then (.error (.ioError command), s)
  else (.ok (), emitEv (.spawned command args) s)

/-- fn start_daemon: daemonize (writes pid file), open pty, spawn the child
(child.wait() has no filesystem effect). -/
def start_daemon (name command : String) (args : List String) : M Unit :=
  M.bind (daemonize_start (pid_file_path name)) fun _ =>
  M.bind pty_open fun _ =>
  spawn_child command args

/-- fn create. -/
def create (name command : String) (args : List String) : M Unit :=
  M.bind (create_files name) fun _ =>
  M.bind (get_files name) fun _ =>
  start_daemon name command args

/-- fn ensure_pid_file. -/
def ensure_pid_file (name : String) : M Unit := fun _ s =>
  if pathExistsB s (pid_file_path name) then (.ok (), s)
  else (.error (.pidFileMissing (pid_file_path name)), s)

/-- fn ensure_process_is_running: pid file must exist, its content must parse
as an i32, and kill(pid, 0) must succeed. -/
def ensure_process_is_running (name : String) : M Unit :=
  M.bind (ensure_pid_file name) fun _ =>
  M.bind (read_to_string (pid_file_path name)) fun content =>
  match parseI32 content with
  | none => M.throw .parseIntError
  | some pid =>
    M.bind (raw_kill pid 0) fun ok =>
    if ok then M.pure () else M.throw (.notRunning name)

/-- fn write: liveness check, open stdin write-only, write message then a
newline, flush (a no-op for File). -/
def write (name message : String) : M Unit :=
  M.bind (ensure_process_is_running name) fun _ =>
  M.bind (openFile (stdin_path name) ⟨false, true, false, false⟩) fun f =>
  M.bind (write_all f message) fun _ =>
  M.bind (write_all f "\n") fun _ =>
  M.pure ()

/-- stdout.read_to_string(&mut output).ok(): drain the currently available
bytes of the non-blocking FIFO handle; a read failure or would-block leaves
whatever was drained (nothing, when the read fails at once) and the error is
discarded, so this step never errors. -/
def read_fifo_nonblocking (p : String) : M String := fun env s =>
  if env.readFifoFails p then (.ok "", s)
  else
    match findEntry s.entries (.valid p) with
    | some (.fifo buf) => (.ok buf, { s with entries := setEntry s.entries (.valid p) (.fifo "") })
    | some (.file c) => (.ok c, s)
    | _ => (.ok "", s)

/-- fn read_stdout: liveness check, open the stdout FIFO read-only with
O_NONBLOCK, drain with errors discarded. -/
def read_stdout (name : String) : M String :=
  M.bind (ensure_process_is_running name) fun _ =>
  M.bind (openFile (stdout_path name) ⟨true, false, false, true⟩) fun f =>
  read_fifo_nonblocking f

def isFile : EntryKind → Bool
  | .file _ => true
  | _ => false

/-- The loop body of fn list_daemons: for each entry, if it is a regular file
then unwrap its name (panicking on invalid UTF-8 - modelled as Err.panicked)
and keep it when it ends with ".pid", with every occurrence of ".pid"
replaced by the empty string.  The unwrap is only reached for regular files
because Rust && short-circuits after entry.file_type()?.is_file(). -/
def collect_pid_entries : List (OsStr × EntryKind) → Except Err (List String)
  | [] => .ok []
  | (nm, k) :: rest =>
    if isFile k then
      match nm with
      | .invalid _ => .error .panicked
      | .valid str =>
        if strEndsWith str ".pid" then
          match collect_pid_entries rest with
          | .ok ds => .ok (rustReplace str ".pid" "" :: ds)
          | .error e => .error e
        else collect_pid_entries rest
    else collect_pid_entries rest

/-- fn list_daemons. -/
def list_daemons : M (List String) :=
  M.bind ensure_pipe_dir_exists fun _ =>
  fun _ s =>
    match collect_pid_entries s.entries with
    | .ok ds => (.ok ds, s)
    | .error e => (.error e, s)

/-- fn kill_daemon: pid file must exist and parse; kill(pid, SIGTERM) with the
result ignored; then remove the pid file and the three FIFOs in order. -/
def kill_daemon (name : String) : M Unit :=
  M.bind (ensure_pid_file name) fun _ =>
  M.bind (read_to_string (pid_file_path name)) fun content =>
  match parseI32 content with
  | none => M.throw .parseIntError
  | some pid =>
    M.bind (raw_kill pid 15) fun _ =>
    M.bind (remove_file (pid_file_path name)) fun _ =>
    M.bind (remove_file (stdin_path name)) fun _ =>
    M.bind (remove_file (stdout_path name)) fun _ =>
    remove_file (stderr_path name)

/-- The loop of fn kill_all_daemons: kill each daemon, pushing it onto the
result on success and logging (eprintln) and continuing on failure. -/
def kill_each : List String → M (List String)
  | [] => M.pure []
  | d :: ds => fun env s =>
    match kill_daemon d env s with
    | (.ok _, s1) =>
      match kill_each ds env s1 with
      | (.ok killed, s2) => (.ok (d :: killed), s2)
      | (.error e, s2) => (.error e, s2)
    | (.error _, s1) => kill_each ds env s1

/-- fn kill_all_daemons. -/
def kill_all_daemons : M (List String) :=
  M.bind list_daemons fun daemons => kill_each daemons

theorem findEntry_setEntry (l : List (OsStr × EntryKind)) (p q : OsStr) (k : EntryKind) :
    findEntry (setEntry l p k) q = if p = q then some k else findEntry l q := by
  induction l with
  | nil => simp [setEntry, findEntry]
  | cons a rest ih =>
    obtain ⟨a1, a2⟩ := a
    by_cases h1 : a1 = p
    · subst h1
      by_cases h2 : a1 = q <;> simp [setEntry, findEntry, h2]
    · by_cases h2 : a1 = q
      · subst h2
        have : ¬ p = a1 := fun hc => h1 hc.symm
        simp [setEntry, findEntry, h1, this]
      · simp [setEntry, findEntry, h1, h2, ih]

theorem findEntry_removeEntry (l : List (OsStr × EntryKind)) (p q : OsStr) :
    findEntry (removeEntry l p) q = if p = q then none else findEntry l q := by
  induction l with
  | nil => simp [removeEntry, findEntry]
  | cons a rest ih =>
    obtain ⟨a1, a2⟩ := a
    by_cases h1 : a1 = p
    · subst h1
      by_cases h2 : a1 = q
      · subst h2
        simp [removeEntry, findEntry, ih]
      · simp [removeEntry, findEntry, h2, ih]
    · by_cases h2 : a1 = q
      · subst h2
        have : ¬ a1 = p := h1
        have hpq : ¬ p = a1 := fun hc => h1 hc.symm
        simp [removeEntry, findEntry, this, hpq]
      · simp [removeEntry, findEntry, h1, h2, ih]

theorem findEntry_append_single (l : List (OsStr × EntryKind)) (q : OsStr) (k : EntryKind)
    (p : OsStr) :
    findEntry (l ++ [(q, k)]) p =
      (match findEntry l p with
       | some k0 => some k0
       | none => if q = p then some k else none) := by
  induction l with
  | nil => simp [findEntry]
  | cons a rest ih =>
    obtain ⟨a1, a2⟩ := a
    by_cases h1 : a1 = p <;> simp [findEntry, h1, ih]

theorem append_ne_of_data_ne (name x y : String) (h : x.data ≠ y.data) :
    name ++ x ≠ name ++ y := by
  intro he
  apply h
  have hd : (name ++ x).data = (name ++ y).data := by rw [he]
  rw [String.data_append, String.data_append] at hd
  exact List.append_cancel_left hd

theorem pid_ne_stdin (name : String) : pid_file_path name ≠ stdin_path name :=
  append_ne_of_data_ne name ".pid" "_stdin" (by decide)

theorem pid_ne_stdout (name : String) : pid_file_path name ≠ stdout_path name :=
  append_ne_of_data_ne name ".pid" "_stdout" (by decide)

theorem pid_ne_stderr (name : String) : pid_file_path name ≠ stderr_path name :=
  append_ne_of_data_ne name ".pid" "_stderr" (by decide)

theorem stdin_ne_stdout (name : String) : stdin_path name ≠ stdout_path name :=
  append_ne_of_data_ne name "_stdin" "_stdout" (by decide)

theorem stdin_ne_stderr (name : String) : stdin_path name ≠ stderr_path name :=
  append_ne_of_data_ne name "_stdin" "_stderr" (by decide)

theorem stdout_ne_stderr (name : String) : stdout_path name ≠ stderr_path name :=
  append_ne_of_data_ne name "_stdout" "_stderr" (by decide)

theorem epr_result (env : Env) (s : St) (name : String) :
    (ensure_process_is_running name env s).1 =
      (if pathExistsB s (pid_file_path name) then
        match findEntry s.entries (.valid (pid_file_path name)) with
        | some (.file c) =>
          (match parseI32 c with
           | none => Except.error Err.parseIntError
           | some pid => if env.alive pid then Except.ok () else Except.error (Err.notRunning name))
        | _ => Except.error (Err.ioError (pid_file_path name))
      else Except.error (Err.pidFileMissing (pid_file_path name))) := by
  unfold ensure_process_is_running M.bind M.throw M.pure ensure_pid_file read_to_string raw_kill
  by_cases hp : pathExistsB s (pid_file_path name)
  · have hd : s.dirExists = true := by
      have h2 := hp
      unfold pathExistsB at h2
      simp only [Bool.and_eq_true] at h2
      exact h2.1
    cases hf : findEntry s.entries (OsStr.valid (pid_file_path name)) with
    | none => simp [hp, hd, hf]
    | some k =>
      cases k with
      | file c =>
        cases hpar : parseI32 c with
        | none => simp [hp, hd, hf, hpar]
        | some pid => cases ha : env.alive pid <;> simp [hp, hd, hf, hpar, ha]
      | fifo b => simp [hp, hd, hf]
      | dir => simp [hp, hd, hf]
  · simp [hp]

theorem epr_state (env : Env) (s : St) (name : String) :
    (ensure_process_is_running name env s).2 = s ∨
    ∃ pid c, findEntry s.entries (.valid (pid_file_path name)) = some (.file c) ∧
      parseI32 c = some pid ∧
      (ensure_process_is_running name env s).2 = emitEv (.signaled pid 0) s := by
  unfold ensure_process_is_running M.bind M.throw M.pure ensure_pid_file read_to_string raw_kill
  by_cases hp : pathExistsB s (pid_file_path name)
  · have hd : s.dirExists = true := by
      have h2 := hp
      unfold pathExistsB at h2
      simp only [Bool.and_eq_true] at h2
      exact h2.1
    cases hf : findEntry s.entries (OsStr.valid (pid_file_path name)) with
    | none => simp [hp, hd, hf]
    | some k =>
      cases k with
      | file c =>
        cases hpar : parseI32 c with
        | none => simp [hp, hd, hf, hpar]
        | some pid =>
          right
          refine ⟨pid, c, rfl, hpar, ?_⟩
          cases ha : env.alive pid <;> simp [hp, hd, hf, hpar, ha]
      | fifo b => simp [hp, hd, hf]
      | dir => simp [hp, hd, hf]
  · simp [hp]

theorem epr_entries (env : Env) (s : St) (name : String) :
    (ensure_process_is_running name env s).2.entries = s.entries := by
  rcases epr_state env s name with h | ⟨pid, c, _, _, h⟩ <;> simp [h, emitEv]

theorem epr_dirExists (env : Env) (s : St) (name : String) :
    (ensure_process_is_running name env s).2.dirExists = s.dirExists := by
  rcases epr_state env s name with h | ⟨pid, c, _, _, h⟩ <;> simp [h, emitEv]

theorem epr_ok_dir (env : Env) (s : St) (name : String)
    (h : (ensure_process_is_running name env s).1 = .ok ()) : s.dirExists = true := by
  by_cases hp : pathExistsB s (pid_file_path name)
  · unfold pathExistsB at hp
    simp only [Bool.and_eq_true] at hp
    exact hp.1
  · rw [epr_result, if_neg hp] at h
    exact absurd h (by simp)

theorem epr_state_parse (env : Env) (s : St) (name : String) (c : String) (pid : Int)
    (hp : pathExistsB s (pid_file_path name) = true)
    (hf : findEntry s.entries (.valid (pid_file_path name)) = some (.file c))
    (hpar : parseI32 c = some pid) :
    (ensure_process_is_running name env s).2 = emitEv (.signaled pid 0) s := by
  have hd : s.dirExists = true := by
    have h2 := hp
    unfold pathExistsB at h2
    simp only [Bool.and_eq_true] at h2
    exact h2.1
  unfold ensure_process_is_running M.bind M.throw M.pure ensure_pid_file read_to_string raw_kill
  cases ha : env.alive pid <;> simp [hp, hd, hf, hpar, ha]

theorem entries_emitEv (e : Ev) (s : St) : (emitEv e s).entries = s.entries := rfl

theorem dirExists_emitEv (e : Ev) (s : St) : (emitEv e s).dirExists = s.dirExists := rfl

theorem trace_emitEv (e : Ev) (s : St) : (emitEv e s).trace = s.trace ++ [e] := rfl

theorem M.bind_ok {α β : Type} (x : M α) (f : α → M β) (env : Env) (s : St) (a : α) (s1 : St)
    (h : x env s = (.ok a, s1)) : M.bind x f env s = f a env s1 := by
  unfold M.bind
  rw [h]

theorem M.bind_err {α β : Type} (x : M α) (f : α → M β) (env : Env) (s : St) (e : Err) (s1 : St)
    (h : x env s = (.error e, s1)) : M.bind x f env s = (.error e, s1) := by
  unfold M.bind
  rw [h]

theorem ensure_pid_file_ok (env : Env) (s : St) (name : String)
    (hp : pathExistsB s (pid_file_path name) = true) :
    ensure_pid_file name env s = (.ok (), s) := by
  unfold ensure_pid_file
  simp [hp]

theorem ensure_pid_file_err (env : Env) (s : St) (name : String)
    (hp : pathExistsB s (pid_file_path name) = false) :
    ensure_pid_file name env s = (.error (.pidFileMissing (pid_file_path name)), s) := by
  unfold ensure_pid_file
  simp [hp]

theorem read_to_string_ok (env : Env) (s : St) (p : String) (c : String)
    (hd : s.dirExists = true)
    (hf : findEntry s.entries (.valid p) = some (.file c)) :
    read_to_string p env s = (.ok c, s) := by
  unfold read_to_string
  simp [hd, hf]

theorem raw_kill_run (env : Env) (s : St) (pid sig : Int) :
    raw_kill pid sig env s = (.ok (env.alive pid), emitEv (.signaled pid sig) s) := rfl

theorem openFile_ok (env : Env) (s : St) (p : String) (m : OpenMode) (k : EntryKind)
    (hd : s.dirExists = true)
    (hf : findEntry s.entries (.valid p) = some k)
    (ho : env.openFails p = false) :
    openFile p m env s = (.ok p, emitEv (.opened p m) s) := by
  unfold openFile
  simp [hd, hf, ho]

theorem write_all_ok (env : Env) (s : St) (p data : String) (buf : String)
    (hw : env.writeFails p data = false)
    (hf : findEntry s.entries (.valid p) = some (.fifo buf)) :
    write_all p data env s =
      (.ok (), { s with entries := setEntry s.entries (.valid p) (.fifo (buf ++ data)) }) := by
  unfold write_all
  simp [hw, hf]

theorem write_all_fail (env : Env) (s : St) (p data : String)
    (hw : env.writeFails p data = true) :
    write_all p data env s = (.error (.ioError p), s) := by
  unfold write_all
  simp [hw]

theorem remove_file_ok (env : Env) (s : St) (p : String) (k : EntryKind)
    (hd : s.dirExists = true)
    (hf : findEntry s.entries (.valid p) = some k)
    (hk : k ≠ .dir)
    (hr : env.removeFails p = false) :
    remove_file p env s =
      (.ok (), emitEv (.removed p) { s with entries := removeEntry s.entries (.valid p) }) := by
  unfold remove_file
  cases k with
  | file c => simp [hd, hf, hr]
  | fifo b => simp [hd, hf, hr]
  | dir => exact absurd rfl hk

theorem remove_file_fail (env : Env) (s : St) (p : String) (k : EntryKind)
    (hd : s.dirExists = true)
    (hf : findEntry s.entries (.valid p) = some k)
    (hk : k ≠ .dir)
    (hr : env.removeFails p = true) :
    remove_file p env s = (.error (.ioError p), s) := by
  unfold remove_file
  cases k with
  | file c => simp [hd, hf, hr]
  | fifo b => simp [hd, hf, hr]
  | dir => exact absurd rfl hk

/-- A benign environment for concrete witnesses: process 42 is the only live
one and no primitive fails. -/
def envOk : Env :=
  { alive := (fun p => p == 42)
    mkdirFails := false
    mkfifoFails := (fun _ => false)
    openFails := (fun _ => false)
    readFifoFails := (fun _ => false)
    writeFails := (fun _ _ => false)
    removeFails := (fun _ => false)
    daemonizeFails := false
    ptyFails := false
    spawnFails := false
    daemonPid := 42 }

/-- A concrete state with one fully set up daemon "n" whose pid file holds 42
and whose stdout FIFO buffers "hello". -/
def stOk : St :=
  { dirExists := true
    entries := [(.valid "n.pid", .file "42"), (.valid "n_stdin", .fifo ""),
                (.valid "n_stdout", .fifo "hello"), (.valid "n_stderr", .fifo "")]
    trace := [] }

/-- C1: For every daemon name, the liveness check ensure_process_is_running
fails with the unknown-daemon style pid-file-missing error when the PID file
does not exist; fails with a parse error when the PID file content is not a
decimal integer; otherwise sends the null signal (signal 0) to the parsed
PID, returning success iff the signal call reports no error and the
not-running error iff it reports an error.  (When the entry at the pid path
is not a regular file its content cannot be read and the read error
propagates; the case split below makes that case explicit.) -/
theorem C1_ensure_process_is_running (env : Env) (s : St) (name : String) :
    ((ensure_process_is_running name env s).1 =
      (if pathExistsB s (pid_file_path name) then
        match findEntry s.entries (.valid (pid_file_path name)) with
        | some (.file c) =>
          (match parseI32 c with
           | none => Except.error Err.parseIntError
           | some pid =>
             if env.alive pid then Except.ok () else Except.error (Err.notRunning name))
        | _ => Except.error (Err.ioError (pid_file_path name))
      else Except.error (Err.pidFileMissing (pid_file_path name)))) ∧
    (∀ c pid, pathExistsB s (pid_file_path name) = true →
      findEntry s.entries (.valid (pid_file_path name)) = some (.file c) →
      parseI32 c = some pid →
      (ensure_process_is_running name env s).2 = emitEv (.signaled pid 0) s) :=
  ⟨epr_result env s name,
   fun c pid hp hf hpar => epr_state_parse env s name c pid hp hf hpar⟩

/-- Witness for C1 at a concrete input: daemon "n" with pid file content "42"
and live process 42; the check succeeds and the state records the null signal
sent to pid 42. -/
theorem C1_witness :
    (ensure_process_is_running "n" envOk stOk).2 = emitEv (.signaled 42 0) stOk ∧
    (ensure_process_is_running "n" envOk stOk).1 = .ok () := by
  constructor
  · exact (C1_ensure_process_is_running envOk stOk "n").2 "42" 42 (by rfl) (by rfl) (by rfl)
  · have h := (C1_ensure_process_is_running envOk stOk "n").1
    rw [h]
    rfl

/-- C2: read_stdout first requires the liveness check to pass (its error
propagates unchanged), then opens the stdout FIFO read-only in non-blocking
mode (recorded in the trace) and drains all currently available bytes; when
no data is available or the read fails it returns the empty string as a
successful result - the read step itself never produces an error. -/
theorem C2_read_stdout (env : Env) (s : St) (name : String) :
    (∀ e, (ensure_process_is_running name env s).1 = .error e →
      (read_stdout name env s).1 = .error e) ∧
    (∀ buf, (ensure_process_is_running name env s).1 = .ok () →
      findEntry s.entries (.valid (stdout_path name)) = some (.fifo buf) →
      env.openFails (stdout_path name) = false →
      (read_stdout name env s).1 =
        .ok (if env.readFifoFails (stdout_path name) then "" else buf) ∧
      Ev.opened (stdout_path name) ⟨true, false, false, true⟩ ∈
        (read_stdout name env s).2.trace ∧
      (env.readFifoFails (stdout_path name) = false →
        findEntry (read_stdout name env s).2.entries (.valid (stdout_path name)) =
          some (.fifo ""))) := by
  constructor
  · intro e he
    unfold read_stdout
    rcases hE : ensure_process_is_running name env s with ⟨r, s1⟩
    rw [hE] at he
    replace he : r = .error e := he
    subst he
    rw [M.bind_err _ _ env s e s1 hE]
  · intro buf hok hf ho
    rcases hE : ensure_process_is_running name env s with ⟨r, s1⟩
    rw [hE] at hok
    replace hok : r = .ok () := hok
    subst hok
    have hok1 : (ensure_process_is_running name env s).1 = .ok () := by rw [hE]
    have hd : s.dirExists = true := epr_ok_dir env s name hok1
    have hent : s1.entries = s.entries := by
      have h2 := epr_entries env s name
      rw [hE] at h2
      exact h2
    have hdir1 : s1.dirExists = true := by
      have h2 := epr_dirExists env s name
      rw [hE] at h2
      rw [h2, hd]
    have hf1 : findEntry s1.entries (.valid (stdout_path name)) = some (.fifo buf) := by
      rw [hent]
      exact hf
    have hopen := openFile_ok env s1 (stdout_path name) ⟨true, false, false, true⟩ _ hdir1 hf1 ho
    have hrun : read_stdout name env s =
        read_fifo_nonblocking (stdout_path name) env
          (emitEv (.opened (stdout_path name) ⟨true, false, false, true⟩) s1) := by
      unfold read_stdout
      rw [M.bind_ok _ _ env s () s1 hE]
      rw [M.bind_ok _ _ env s1 (stdout_path name) _ hopen]
    rw [hrun]
    unfold read_fifo_nonblocking
    cases hr : env.readFifoFails (stdout_path name) with
    | false =>
      have hf2 : findEntry
          (emitEv (.opened (stdout_path name) ⟨true, false, false, true⟩) s1).entries
          (.valid (stdout_path name)) = some (.fifo buf) := hf1
      refine ⟨?_, ?_, ?_⟩
      · simp [hf2]
      · simp [hf2, trace_emitEv]
      · intro
        simp [hf2, findEntry_setEntry]
    | true =>
      refine ⟨?_, ?_, ?_⟩
      · simp
      · simp [trace_emitEv]
      · intro hcontra
        exact Bool.noConfusion hcontra

/-- Witness for C2 at a concrete input: the stdout FIFO of daemon "n" buffers
"hello"; the read returns it as a success and empties the buffer. -/
theorem C2_witness :
    (read_stdout "n" envOk stOk).1 = .ok "hello" ∧
    findEntry (read_stdout "n" envOk stOk).2.entries (.valid (stdout_path "n")) =
      some (.fifo "") := by
  have h := (C2_read_stdout envOk stOk "n").2 "hello" (by rfl) (by rfl) (by rfl)
  refine ⟨?_, h.2.2 (by rfl)⟩
  rw [h.1]
  rfl

/-- C3: write requires the liveness check to pass (in the not-running case it
returns that error and writes nothing: the entries are unchanged), opens the
stdin FIFO write-only (recorded in the trace), and succeeds exactly when both
write_all calls succeed, in which case the FIFO buffer is extended by exactly
the message bytes followed by one newline byte. -/
theorem C3_write (env : Env) (s : St) (name message : String) :
    (∀ e, (ensure_process_is_running name env s).1 = .error e →
      (write name message env s).1 = .error e ∧
      (write name message env s).2.entries = s.entries) ∧
    (∀ buf, (ensure_process_is_running name env s).1 = .ok () →
      findEntry s.entries (.valid (stdin_path name)) = some (.fifo buf) →
      env.openFails (stdin_path name) = false →
      (((write name message env s).1 = .ok ()) ↔
        (env.writeFails (stdin_path name) message = false ∧
         env.writeFails (stdin_path name) "\n" = false)) ∧
      Ev.opened (stdin_path name) ⟨false, true, false, false⟩ ∈
        (write name message env s).2.trace ∧
      (env.writeFails (stdin_path name) message = false →
       env.writeFails (stdin_path name) "\n" = false →
        findEntry (write name message env s).2.entries (.valid (stdin_path name)) =
          some (.fifo (buf ++ message ++ "\n")))) := by
  constructor
  · intro e he
    unfold write
    rcases hE : ensure_process_is_running name env s with ⟨r, s1⟩
    have hent : s1.entries = s.entries := by
      have h2 := epr_entries env s name
      rw [hE] at h2
      exact h2
    rw [hE] at he
    replace he : r = .error e := he
    subst he
    rw [M.bind_err _ _ env s e s1 hE]
    exact ⟨rfl, hent⟩
  · intro buf hok hf ho
    rcases hE : ensure_process_is_running name env s with ⟨r, s1⟩
    rw [hE] at hok
    replace hok : r = .ok () := hok
    subst hok
    have hok1 : (ensure_process_is_running name env s).1 = .ok () := by rw [hE]
    have hd : s.dirExists = true := epr_ok_dir env s name hok1
    have hent : s1.entries = s.entries := by
      have h2 := epr_entries env s name
      rw [hE] at h2
      exact h2
    have hdir1 : s1.dirExists = true := by
      have h2 := epr_dirExists env s name
      rw [hE] at h2
      rw [h2, hd]
    have hf1 : findEntry s1.entries (.valid (stdin_path name)) = some (.fifo buf) := by
      rw [hent]
      exact hf
    have hopen := openFile_ok env s1 (stdin_path name) ⟨false, true, false, false⟩ _ hdir1 hf1 ho
    have hrun : write name message env s =
        (M.bind (write_all (stdin_path name) message) fun _ =>
         M.bind (write_all (stdin_path name) "\n") fun _ => M.pure ()) env
          (emitEv (.opened (stdin_path name) ⟨false, true, false, false⟩) s1) := by
      unfold write
      rw [M.bind_ok _ _ env s () s1 hE]
      rw [M.bind_ok _ _ env s1 (stdin_path name) _ hopen]
    rw [hrun]
    cases hw1 : env.writeFails (stdin_path name) message with
    | true =>
      rw [M.bind_err _ _ _ _ _ _ (write_all_fail env _ (stdin_path name) message hw1)]
      refine ⟨by simp, by simp [trace_emitEv], fun hc _ => Bool.noConfusion hc⟩
    | false =>
      have hf2 : findEntry
          (emitEv (.opened (stdin_path name) ⟨false, true, false, false⟩) s1).entries
          (.valid (stdin_path name)) = some (.fifo buf) := hf1
      rw [M.bind_ok _ _ _ _ _ _ (write_all_ok env _ (stdin_path name) message buf hw1 hf2)]
      cases hw2 : env.writeFails (stdin_path name) "\n" with
      | true =>
        rw [M.bind_err _ _ _ _ _ _ (write_all_fail env _ (stdin_path name) "\n" hw2)]
        refine ⟨by simp, by simp [trace_emitEv], fun _ hc => Bool.noConfusion hc⟩
      | false =>
        have hf3 : findEntry
            (setEntry (emitEv (.opened (stdin_path name) ⟨false, true, false, false⟩) s1).entries
              (.valid (stdin_path name)) (.fifo (buf ++ message)))
            (.valid (stdin_path name)) = some (.fifo (buf ++ message)) := by
          simp [findEntry_setEntry]
        rw [M.bind_ok _ _ _ _ _ _ (write_all_ok env _ (stdin_path name) "\n" (buf ++ message) hw2 hf3)]
        refine ⟨by simp [M.pure, hw1, hw2], ?_, ?_⟩
        · simp [M.pure, trace_emitEv]
        · intro _ _
          simp [M.pure, findEntry_setEntry]

/-- Witness for C3 at a concrete input: writing "hi" to daemon "n" succeeds
and the stdin FIFO buffer afterwards holds exactly "hi" plus one newline. -/
theorem C3_witness :
    (write "n" "hi" envOk stOk).1 = .ok () ∧
    findEntry (write "n" "hi" envOk stOk).2.entries (.valid (stdin_path "n")) =
      some (.fifo "hi\n") := by
  have h := (C3_write envOk stOk "n" "hi").2 "" (by rfl) (by rfl) (by rfl)
  exact ⟨h.1.mpr ⟨rfl, rfl⟩, h.2.2 rfl rfl⟩

theorem remove_file_ok2 (env : Env) (s : St) (p : String) (k : EntryKind)
    (hd : s.dirExists = true)
    (hf : findEntry s.entries (.valid p) = some k)
    (hk : k ≠ .dir)
    (hr : env.removeFails p = false) :
    remove_file p env s =
      (.ok (), ⟨s.dirExists, removeEntry s.entries (.valid p), s.trace ++ [.removed p]⟩) :=
  remove_file_ok env s p k hd hf hk hr

theorem remove_file_err_any (env : Env) (s : St) (p : String)
    (hr : env.removeFails p = true) :
    ∃ e, remove_file p env s = (.error e, s) := by
  unfold remove_file
  cases hdd : s.dirExists with
  | false => exact ⟨.ioError p, by simp [hdd]⟩
  | true =>
    cases hf : findEntry s.entries (.valid p) with
    | none => exact ⟨.ioError p, by simp [hdd, hf]⟩
    | some k => cases k <;> exact ⟨.ioError p, by simp [hdd, hf, hr]⟩

/-- After the pid file is found and parses, kill_daemon has sent SIGTERM and
is left with the four removals, starting from the state with the signal
recorded. -/
theorem kill_daemon_to_removals (env : Env) (s : St) (name : String) (c : String) (pid : Int)
    (hd : s.dirExists = true)
    (hpid : findEntry s.entries (.valid (pid_file_path name)) = some (.file c))
    (hparse : parseI32 c = some pid) :
    kill_daemon name env s =
      (M.bind (remove_file (pid_file_path name)) fun _ =>
       M.bind (remove_file (stdin_path name)) fun _ =>
       M.bind (remove_file (stdout_path name)) fun _ =>
       remove_file (stderr_path name)) env (emitEv (.signaled pid 15) s) := by
  have hp : pathExistsB s (pid_file_path name) = true := by
    unfold pathExistsB
    rw [hd, hpid]
    rfl
  unfold kill_daemon M.bind M.throw ensure_pid_file read_to_string raw_kill
  simp [hp, hd, hpid, hparse]

theorem removals_chain_ok (env : Env) (t : St) (name : String) (kp k1 k2 k3 : EntryKind)
    (hd : t.dirExists = true)
    (f0 : findEntry t.entries (.valid (pid_file_path name)) = some kp) (hk0 : kp ≠ .dir)
    (f1 : findEntry t.entries (.valid (stdin_path name)) = some k1) (hk1 : k1 ≠ .dir)
    (f2 : findEntry t.entries (.valid (stdout_path name)) = some k2) (hk2 : k2 ≠ .dir)
    (f3 : findEntry t.entries (.valid (stderr_path name)) = some k3) (hk3 : k3 ≠ .dir)
    (hr0 : env.removeFails (pid_file_path name) = false)
    (hr1 : env.removeFails (stdin_path name) = false)
    (hr2 : env.removeFails (stdout_path name) = false)
    (hr3 : env.removeFails (stderr_path name) = false) :
    (M.bind (remove_file (pid_file_path name)) fun _ =>
     M.bind (remove_file (stdin_path name)) fun _ =>
     M.bind (remove_file (stdout_path name)) fun _ =>
     remove_file (stderr_path name)) env t =
    (.ok (), ⟨t.dirExists,
      removeEntry (removeEntry (removeEntry (removeEntry t.entries
        (.valid (pid_file_path name))) (.valid (stdin_path name)))
        (.valid (stdout_path name))) (.valid (stderr_path name)),
      t.trace ++ [.removed (pid_file_path name), .removed (stdin_path name),
        .removed (stdout_path name), .removed (stderr_path name)]⟩) := by
  have g1 : findEntry (removeEntry t.entries (.valid (pid_file_path name)))
      (.valid (stdin_path name)) = some k1 := by
    rw [findEntry_removeEntry]
    simp [f1, pid_ne_stdin name]
  have g2 : findEntry (removeEntry (removeEntry t.entries (.valid (pid_file_path name)))
      (.valid (stdin_path name))) (.valid (stdout_path name)) = some k2 := by
    rw [findEntry_removeEntry, findEntry_removeEntry]
    simp [f2, pid_ne_stdout name, stdin_ne_stdout name]
  have g3 : findEntry (removeEntry (removeEntry (removeEntry t.entries
      (.valid (pid_file_path name))) (.valid (stdin_path name)))
      (.valid (stdout_path name))) (.valid (stderr_path name)) = some k3 := by
    rw [findEntry_removeEntry, findEntry_removeEntry, findEntry_removeEntry]
    simp [f3, pid_ne_stderr name, stdin_ne_stderr name, stdout_ne_stderr name]
  have e0 := remove_file_ok2 env t (pid_file_path name) kp hd f0 hk0 hr0
  have e1 := remove_file_ok2 env
    ⟨t.dirExists, removeEntry t.entries (.valid (pid_file_path name)),
      t.trace ++ [.removed (pid_file_path name)]⟩
    (stdin_path name) k1 hd g1 hk1 hr1
  have e2 := remove_file_ok2 env
    ⟨t.dirExists, removeEntry (removeEntry t.entries (.valid (pid_file_path name)))
      (.valid (stdin_path name)),
      t.trace ++ [.removed (pid_file_path name)] ++ [.removed (stdin_path name)]⟩
    (stdout_path name) k2 hd g2 hk2 hr2
  have e3 := remove_file_ok2 env
    ⟨t.dirExists, removeEntry (removeEntry (removeEntry t.entries
      (.valid (pid_file_path name))) (.valid (stdin_path name))) (.valid (stdout_path name)),
      t.trace ++ [.removed (pid_file_path name)] ++ [.removed (stdin_path name)]
        ++ [.removed (stdout_path name)]⟩
    (stderr_path name) k3 hd g3 hk3 hr3
  simp only [M.bind, e0, e1, e2, e3]
  simp

/-- When the pid file parses and the four files are present and removable,
kill_daemon succeeds, records SIGTERM to the parsed pid, and removes all four
files; the outcome of the signal delivery is never consulted. -/
theorem kill_daemon_success (env : Env) (s : St) (name : String) (c : String) (pid : Int)
    (b1 b2 b3 : String)
    (hd : s.dirExists = true)
    (hpid : findEntry s.entries (.valid (pid_file_path name)) = some (.file c))
    (hparse : parseI32 c = some pid)
    (h1 : findEntry s.entries (.valid (stdin_path name)) = some (.fifo b1))
    (h2 : findEntry s.entries (.valid (stdout_path name)) = some (.fifo b2))
    (h3 : findEntry s.entries (.valid (stderr_path name)) = some (.fifo b3))
    (hr0 : env.removeFails (pid_file_path name) = false)
    (hr1 : env.removeFails (stdin_path name) = false)
    (hr2 : env.removeFails (stdout_path name) = false)
    (hr3 : env.removeFails (stderr_path name) = false) :
    (kill_daemon name env s).1 = .ok () ∧
    Ev.signaled pid 15 ∈ (kill_daemon name env s).2.trace ∧
    findEntry (kill_daemon name env s).2.entries (.valid (pid_file_path name)) = none ∧
    findEntry (kill_daemon name env s).2.entries (.valid (stdin_path name)) = none ∧
    findEntry (kill_daemon name env s).2.entries (.valid (stdout_path name)) = none ∧
    findEntry (kill_daemon name env s).2.entries (.valid (stderr_path name)) = none := by
  rw [kill_daemon_to_removals env s name c pid hd hpid hparse]
  rw [removals_chain_ok env (emitEv (.signaled pid 15) s) name (.file c) (.fifo b1) (.fifo b2)
    (.fifo b3) hd hpid (by simp) h1 (by simp) h2 (by simp) h3 (by simp) hr0 hr1 hr2 hr3]
  have n1 := pid_ne_stdin name
  have n2 := pid_ne_stdout name
  have n3 := pid_ne_stderr name
  have n4 := stdin_ne_stdout name
  have n5 := stdin_ne_stderr name
  have n6 := stdout_ne_stderr name
  refine ⟨rfl, ?_, ?_, ?_, ?_, ?_⟩ <;>
    simp [trace_emitEv, entries_emitEv, findEntry_removeEntry,
      n1, n2, n3, n4, n5, n6, n1.symm, n2.symm, n3.symm, n4.symm, n5.symm, n6.symm]

theorem removals_chain_stdout_fail (env : Env) (t : St) (name : String) (kp k1 : EntryKind)
    (hd : t.dirExists = true)
    (f0 : findEntry t.entries (.valid (pid_file_path name)) = some kp) (hk0 : kp ≠ .dir)
    (f1 : findEntry t.entries (.valid (stdin_path name)) = some k1) (hk1 : k1 ≠ .dir)
    (hr0 : env.removeFails (pid_file_path name) = false)
    (hr1 : env.removeFails (stdin_path name) = false)
    (hr2 : env.removeFails (stdout_path name) = true) :
    ∃ e, (M.bind (remove_file (pid_file_path name)) fun _ =>
     M.bind (remove_file (stdin_path name)) fun _ =>
     M.bind (remove_file (stdout_path name)) fun _ =>
     remove_file (stderr_path name)) env t =
    (.error e, ⟨t.dirExists,
      removeEntry (removeEntry t.entries (.valid (pid_file_path name)))
        (.valid (stdin_path name)),
      t.trace ++ [.removed (pid_file_path name), .removed (stdin_path name)]⟩) := by
  have g1 : findEntry (removeEntry t.entries (.valid (pid_file_path name)))
      (.valid (stdin_path name)) = some k1 := by
    rw [findEntry_removeEntry]
    simp [f1, pid_ne_stdin name]
  have e0 := remove_file_ok2 env t (pid_file_path name) kp hd f0 hk0 hr0
  have e1 := remove_file_ok2 env
    ⟨t.dirExists, removeEntry t.entries (.valid (pid_file_path name)),
      t.trace ++ [.removed (pid_file_path name)]⟩
    (stdin_path name) k1 hd g1 hk1 hr1
  obtain ⟨e, he⟩ := remove_file_err_any env
    ⟨t.dirExists, removeEntry (removeEntry t.entries (.valid (pid_file_path name)))
      (.valid (stdin_path name)),
      t.trace ++ [.removed (pid_file_path name)] ++ [.removed (stdin_path name)]⟩
    (stdout_path name) hr2
  refine ⟨e, ?_⟩
  simp only [M.bind, e0, e1, he]
  simp

/-- C5: kill_daemon requires the PID file to exist, parses the PID, sends
SIGTERM, then removes the PID file and all three FIFOs; a removal failure is
surfaced as an error without rolling back the signal or the removals already
performed; and when the PID file does not exist it fails with the
unknown-daemon error and mutates no state at all. -/
theorem C5_kill_daemon (env : Env) (s : St) (name : String) :
    (pathExistsB s (pid_file_path name) = false →
      kill_daemon name env s = (.error (.pidFileMissing (pid_file_path name)), s)) ∧
    (∀ c pid b1 b2 b3,
      s.dirExists = true →
      findEntry s.entries (.valid (pid_file_path name)) = some (.file c) →
      parseI32 c = some pid →
      findEntry s.entries (.valid (stdin_path name)) = some (.fifo b1) →
      findEntry s.entries (.valid (stdout_path name)) = some (.fifo b2) →
      findEntry s.entries (.valid (stderr_path name)) = some (.fifo b3) →
      env.removeFails (pid_file_path name) = false →
      env.removeFails (stdin_path name) = false →
      env.removeFails (stdout_path name) = false →
      env.removeFails (stderr_path name) = false →
      (kill_daemon name env s).1 = .ok () ∧
      Ev.signaled pid 15 ∈ (kill_daemon name env s).2.trace ∧
      findEntry (kill_daemon name env s).2.entries (.valid (pid_file_path name)) = none ∧
      findEntry (kill_daemon name env s).2.entries (.valid (stdin_path name)) = none ∧
      findEntry (kill_daemon name env s).2.entries (.valid (stdout_path name)) = none ∧
      findEntry (kill_daemon name env s).2.entries (.valid (stderr_path name)) = none) ∧
    (∀ c pid b1,
      s.dirExists = true →
      findEntry s.entries (.valid (pid_file_path name)) = some (.file c) →
      parseI32 c = some pid →
      findEntry s.entries (.valid (stdin_path name)) = some (.fifo b1) →
      env.removeFails (pid_file_path name) = false →
      env.removeFails (stdin_path name) = false →
      env.removeFails (stdout_path name) = true →
      (∃ e, (kill_daemon name env s).1 = .error e) ∧
      Ev.signaled pid 15 ∈ (kill_daemon name env s).2.trace ∧
      findEntry (kill_daemon name env s).2.entries (.valid (pid_file_path name)) = none ∧
      findEntry (kill_daemon name env s).2.entries (.valid (stdin_path name)) = none) := by
  refine ⟨?_, ?_, ?_⟩
  · intro hp
    unfold kill_daemon
    rw [M.bind_err _ _ env s _ s (ensure_pid_file_err env s name hp)]
  · intro c pid b1 b2 b3 hd hpid hparse h1 h2 h3 hr0 hr1 hr2 hr3
    exact kill_daemon_success env s name c pid b1 b2 b3 hd hpid hparse h1 h2 h3 hr0 hr1 hr2 hr3
  · intro c pid b1 hd hpid hparse h1 hr0 hr1 hr2
    rw [kill_daemon_to_removals env s name c pid hd hpid hparse]
    obtain ⟨e, he⟩ := removals_chain_stdout_fail env (emitEv (.signaled pid 15) s) name
      (.file c) (.fifo b1) hd hpid (by simp) h1 (by simp) hr0 hr1 hr2
    rw [he]
    have n1 := pid_ne_stdin name
    refine ⟨⟨e, rfl⟩, ?_, ?_, ?_⟩ <;>
      simp [trace_emitEv, entries_emitEv, findEntry_removeEntry, n1, n1.symm]

/-- Witness for C5 at a concrete input: killing the fully set up daemon "n"
succeeds and its pid file entry is gone afterwards. -/
theorem C5_witness :
    (kill_daemon "n" envOk stOk).1 = .ok () ∧
    findEntry (kill_daemon "n" envOk stOk).2.entries (.valid (pid_file_path "n")) = none := by
  have h := (C5_kill_daemon envOk stOk "n").2.1 "42" 42 "" "hello" "" (by rfl) (by rfl)
    (by rfl) (by rfl) (by rfl) (by rfl) (by rfl) (by rfl) (by rfl) (by rfl)
  exact ⟨h.1, h.2.2.1⟩

theorem kill_daemon_alive_irrel (env : Env) (a : Int → Bool) (s : St) (name : String) :
    kill_daemon name { env with alive := a } s = kill_daemon name env s := by
  by_cases hp : pathExistsB s (pid_file_path name)
  · have hd : s.dirExists = true := by
      have h2 := hp
      unfold pathExistsB at h2
      simp only [Bool.and_eq_true] at h2
      exact h2.1
    cases hf : findEntry s.entries (OsStr.valid (pid_file_path name)) with
    | none =>
      unfold kill_daemon M.bind M.throw ensure_pid_file read_to_string
      simp [hp, hd, hf]
    | some k =>
      cases k with
      | file c =>
        cases hparse : parseI32 c with
        | none =>
          unfold kill_daemon M.bind M.throw ensure_pid_file read_to_string
          simp [hp, hd, hf, hparse]
        | some pid =>
          rw [kill_daemon_to_removals { env with alive := a } s name c pid hd hf hparse,
            kill_daemon_to_removals env s name c pid hd hf hparse]
          rfl
      | fifo b =>
        unfold kill_daemon M.bind M.throw ensure_pid_file read_to_string
        simp [hp, hd, hf]
      | dir =>
        unfold kill_daemon M.bind M.throw ensure_pid_file read_to_string
        simp [hp, hd, hf]
  · unfold kill_daemon M.bind ensure_pid_file
    simp [hp]

theorem list_daemons_alive_irrel (env : Env) (a : Int → Bool) (s : St) :
    list_daemons { env with alive := a } s = list_daemons env s := rfl

theorem kill_each_alive_irrel (env : Env) (a : Int → Bool) (ds : List String) (s : St) :
    kill_each ds { env with alive := a } s = kill_each ds env s := by
  induction ds generalizing s with
  | nil => rfl
  | cons d rest ih =>
    unfold kill_each
    rw [kill_daemon_alive_irrel env a s d]
    cases hk : kill_daemon d env s with
    | mk r s1 =>
      cases r with
      | ok u => simp only [ih]
      | error e => simp only [ih]

theorem kill_all_alive_irrel (env : Env) (a : Int → Bool) (s : St) :
    kill_all_daemons { env with alive := a } s = kill_all_daemons env s := by
  unfold kill_all_daemons M.bind
  rw [list_daemons_alive_irrel env a s]
  cases hl : list_daemons env s with
  | mk r s1 =>
    cases r with
    | ok ds => simp only [kill_each_alive_irrel env a ds s1]
    | error e => rfl

/-- C7: the outcome of the SIGTERM delivery is never a cause of kill failure:
kill_daemon and kill_all_daemons are unchanged under any replacement of the
process-liveness oracle, and for a daemon whose pid file exists but whose
process is dead (the signal probe fails) kill_daemon still removes the PID
file and all three FIFOs and reports success. -/
theorem C7_kill_ignores_signal_outcome (env : Env) (s : St) (name : String) :
    (∀ a, kill_daemon name { env with alive := a } s = kill_daemon name env s) ∧
    (∀ a, kill_all_daemons { env with alive := a } s = kill_all_daemons env s) ∧
    (∀ c pid b1 b2 b3,
      env.alive pid = false →
      s.dirExists = true →
      findEntry s.entries (.valid (pid_file_path name)) = some (.file c) →
      parseI32 c = some pid →
      findEntry s.entries (.valid (stdin_path name)) = some (.fifo b1) →
      findEntry s.entries (.valid (stdout_path name)) = some (.fifo b2) →
      findEntry s.entries (.valid (stderr_path name)) = some (.fifo b3) →
      env.removeFails (pid_file_path name) = false →
      env.removeFails (stdin_path name) = false →
      env.removeFails (stdout_path name) = false →
      env.removeFails (stderr_path name) = false →
      (kill_daemon name env s).1 = .ok () ∧
      Ev.signaled pid 15 ∈ (kill_daemon name env s).2.trace ∧
      findEntry (kill_daemon name env s).2.entries (.valid (pid_file_path name)) = none ∧
      findEntry (kill_daemon name env s).2.entries (.valid (stdin_path name)) = none ∧
      findEntry (kill_daemon name env s).2.entries (.valid (stdout_path name)) = none ∧
      findEntry (kill_daemon name env s).2.entries (.valid (stderr_path name)) = none) :=
  ⟨fun a => kill_daemon_alive_irrel env a s name,
   fun a => kill_all_alive_irrel env a s,
   fun c pid b1 b2 b3 _ hd hpid hparse h1 h2 h3 hr0 hr1 hr2 hr3 =>
     kill_daemon_success env s name c pid b1 b2 b3 hd hpid hparse h1 h2 h3 hr0 hr1 hr2 hr3⟩

/-- An environment in which no process is alive (every signal delivery
fails). -/
def envDead : Env := { envOk with alive := (fun _ => false) }

/-- Witness for C7 at a concrete input: daemon "n" has a pid file but its
process 42 is dead; kill still succeeds and the pid file entry is gone. -/
theorem C7_witness :
    (kill_daemon "n" envDead stOk).1 = .ok () ∧
    findEntry (kill_daemon "n" envDead stOk).2.entries (.valid (pid_file_path "n")) = none := by
  have h := (C7_kill_ignores_signal_outcome envDead stOk "n").2.2 "42" 42 "" "hello" ""
    (by rfl) (by rfl) (by rfl) (by rfl) (by rfl) (by rfl) (by rfl) (by rfl) (by rfl)
    (by rfl) (by rfl)
  exact ⟨h.1, h.2.2.1⟩

/-- Modelled from the words of the spec for kill_all: kill each listed daemon
in turn, keep exactly those whose kill succeeded, let a failed kill only be
logged (the state advances past it) without stopping the batch. -/
def killedSpec (env : Env) : List String → St → List String × St
  | [], s => ([], s)
  | d :: ds, s =>
    let r := kill_daemon d env s
    let rest := killedSpec env ds r.2
    (match r.1 with
     | .ok _ => d :: rest.1
     | .error _ => rest.1, rest.2)

theorem kill_each_eq_killedSpec (env : Env) (ds : List String) (s : St) :
    kill_each ds env s = (.ok (killedSpec env ds s).1, (killedSpec env ds s).2) := by
  induction ds generalizing s with
  | nil => rfl
  | cons d rest ih =>
    unfold kill_each killedSpec
    cases hk : kill_daemon d env s with
    | mk r s1 =>
      cases r with
      | ok u => simp [ih]
      | error e => simp [ih]

theorem killedSpec_subset (env : Env) (ds : List String) (s : St) :
    ∀ d ∈ (killedSpec env ds s).1, d ∈ ds := by
  induction ds generalizing s with
  | nil => simp [killedSpec]
  | cons d rest ih =>
    intro x hx
    simp only [killedSpec] at hx
    revert hx
    cases hk : (kill_daemon d env s).1 with
    | ok u =>
      intro hx
      simp only [List.mem_cons] at hx
      rcases hx with h | h
      · simp [h]
      · simp [ih _ _ h]
    | error e =>
      intro hx
      simp [ih _ _ hx]

/-- C6: kill_all_daemons lists the daemons and then kills each listed daemon
in order; a per-daemon kill failure is only logged and does not stop the
remaining kills (the overall call never errors once listing succeeded), and
the returned result is exactly the daemons whose kill succeeded, all of which
come from the listing. -/
theorem C6_kill_all (env : Env) (s : St) :
    (∀ e s1, list_daemons env s = (.error e, s1) →
      kill_all_daemons env s = (.error e, s1)) ∧
    (∀ ds s1, list_daemons env s = (.ok ds, s1) →
      kill_all_daemons env s = (.ok (killedSpec env ds s1).1, (killedSpec env ds s1).2) ∧
      ∀ d ∈ (killedSpec env ds s1).1, d ∈ ds) := by
  constructor
  · intro e s1 hl
    unfold kill_all_daemons
    rw [M.bind_err _ _ env s e s1 hl]
  · intro ds s1 hl
    constructor
    · unfold kill_all_daemons
      rw [M.bind_ok _ _ env s ds s1 hl]
      exact kill_each_eq_killedSpec env ds s1
    · exact fun d hd => killedSpec_subset env ds s1 d hd

/-- Witness for C6 at a concrete input: the one listed daemon "n" is killed
successfully and returned. -/
theorem C6_witness : (kill_all_daemons envOk stOk).1 = .ok ["n"] := by
  have h := (C6_kill_all envOk stOk).2 ["n"] stOk (by rfl)
  rw [h.1]
  rfl

theorem create_dir_all_cases (env : Env) (s : St)
    (h : s.dirExists = true ∨ env.mkdirFails = false) :
    ∃ s1, create_dir_all env s = (.ok (), s1) ∧ s1.entries = s.entries := by
  unfold create_dir_all
  cases hd : s.dirExists with
  | true => exact ⟨s, by simp [hd], rfl⟩
  | false =>
    rcases h with h | h
    · rw [hd] at h
      exact absurd h (by simp)
    · exact ⟨emitEv .mkdirDone { s with dirExists := true }, by simp [hd, h], rfl⟩

/-- The names the amended C4 predicts: every regular-file entry with a valid
name ending in ".pid", the name transformed by removing every occurrence of
".pid" (Rust str::replace), in directory order. -/
def pidNamesSpec (l : List (OsStr × EntryKind)) : List String :=
  l.filterMap fun ek =>
    match ek with
    | (.valid str, .file _) =>
      if strEndsWith str ".pid" then some (rustReplace str ".pid" "") else none
    | _ => none

theorem collect_pid_entries_ok (l : List (OsStr × EntryKind))
    (hv : ∀ i k, (OsStr.invalid i, k) ∈ l → isFile k = false) :
    collect_pid_entries l = .ok (pidNamesSpec l) := by
  induction l with
  | nil => rfl
  | cons a rest ih =>
    obtain ⟨nm, k⟩ := a
    have hrest : ∀ i k2, (OsStr.invalid i, k2) ∈ rest → isFile k2 = false :=
      fun i k2 hm => hv i k2 (List.mem_cons_of_mem _ hm)
    cases nm with
    | invalid i =>
      have hni := hv i k (by simp)
      cases k with
      | file c => simp [isFile] at hni
      | fifo b => simp [collect_pid_entries, pidNamesSpec, isFile, ih hrest]
      | dir => simp [collect_pid_entries, pidNamesSpec, isFile, ih hrest]
    | valid str =>
      cases k with
      | file c =>
        by_cases he : strEndsWith str ".pid" = true
        · simp [collect_pid_entries, pidNamesSpec, isFile, he, ih hrest]
        · simp [collect_pid_entries, pidNamesSpec, isFile, he, ih hrest]
      | fifo b => simp [collect_pid_entries, pidNamesSpec, isFile, ih hrest]
      | dir => simp [collect_pid_entries, pidNamesSpec, isFile, ih hrest]

/-- A directory holding one regular file named "a.pid.pid". -/
def stReplicated : St :=
  { dirExists := true
    entries := [(.valid "a.pid.pid", .file "7")]
    trace := [] }

/-- Counterexample to C4 as stated: for the regular file "a.pid.pid",
list_daemons reports the daemon name "a" (str::replace removes every
occurrence of ".pid"), not "a.pid" as stripping only the trailing suffix
would give. -/
theorem C4_counterexample :
    (list_daemons envOk stReplicated).1 = .ok ["a"] ∧ ["a"] ≠ ["a.pid"] := by
  constructor
  · rfl
  · decide

/-- C4 amended: list_daemons ensures the base directory and then returns
exactly the regular files whose name ends with ".pid", with every occurrence
of ".pid" removed from the name (not only the trailing suffix); no liveness
filtering is applied - the result is independent of the liveness oracle, so
a stale PID file is still listed. -/
theorem C4_list_daemons (env : Env) (s : St)
    (hok : s.dirExists = true ∨ env.mkdirFails = false)
    (hv : ∀ i k, (OsStr.invalid i, k) ∈ s.entries → isFile k = false) :
    (list_daemons env s).1 = .ok (pidNamesSpec s.entries) ∧
    (∀ a, list_daemons { env with alive := a } s = list_daemons env s) := by
  constructor
  · obtain ⟨s1, h1, hent⟩ := create_dir_all_cases env s hok
    have hc := collect_pid_entries_ok s.entries hv
    unfold list_daemons ensure_pipe_dir_exists
    rw [M.bind_ok _ _ env s () s1 h1]
    show (match collect_pid_entries s1.entries with
      | .ok ds => ((.ok ds : Except Err (List String)), s1)
      | .error e => (.error e, s1)).1 = .ok (pidNamesSpec s.entries)
    rw [hent, hc]
  · exact fun a => list_daemons_alive_irrel env a s

/-- Witness for C4 amended at a concrete input: the directory of stOk holds
the pid file "n.pid" plus three FIFOs; the listing is exactly ["n"]. -/
theorem C4_witness : (list_daemons envOk stOk).1 = .ok ["n"] := by
  have h := (C4_list_daemons envOk stOk (Or.inl rfl)
    (by intro i k hm; simp [stOk] at hm)).1
  rw [h]
  rfl

theorem collect_pid_entries_panic_iff (l : List (OsStr × EntryKind)) :
    (collect_pid_entries l = .error .panicked ↔
      ∃ i k, (OsStr.invalid i, k) ∈ l ∧ isFile k = true) ∧
    (∀ e, collect_pid_entries l = .error e → e = .panicked) := by
  induction l with
  | nil =>
    constructor
    · simp [collect_pid_entries]
    · intro e h
      simp [collect_pid_entries] at h
  | cons a rest ih =>
    obtain ⟨nm, k⟩ := a
    cases nm with
    | invalid i =>
      cases hk : isFile k with
      | true =>
        constructor
        · simp only [collect_pid_entries, hk, if_true]
          constructor
          · intro
            exact ⟨i, k, by simp, hk⟩
          · intro
            trivial
        · intro e h
          simp only [collect_pid_entries, hk, if_true] at h
          cases h
          rfl
      | false =>
        constructor
        · rw [show collect_pid_entries ((OsStr.invalid i, k) :: rest) =
              collect_pid_entries rest by simp [collect_pid_entries, hk]]
          rw [ih.1]
          constructor
          · rintro ⟨j, k2, hm, hk2⟩
            exact ⟨j, k2, List.mem_cons_of_mem _ hm, hk2⟩
          · rintro ⟨j, k2, hm, hk2⟩
            rcases List.mem_cons.mp hm with h | h
            · obtain ⟨h1, h2⟩ := Prod.mk.injEq .. ▸ h
              injection h with h1 h2
              subst h2
              rw [hk] at hk2
              cases hk2
            · exact ⟨j, k2, h, hk2⟩
        · intro e h
          rw [show collect_pid_entries ((OsStr.invalid i, k) :: rest) =
              collect_pid_entries rest by simp [collect_pid_entries, hk]] at h
          exact ih.2 e h
    | valid str =>
      have hshape : collect_pid_entries ((OsStr.valid str, k) :: rest) = collect_pid_entries rest ∨
          (isFile k = true ∧ strEndsWith str ".pid" = true ∧
            collect_pid_entries ((OsStr.valid str, k) :: rest) =
              (match collect_pid_entries rest with
               | .ok ds => .ok (rustReplace str ".pid" "" :: ds)
               | .error e => .error e)) := by
        cases hk : isFile k with
        | false => exact Or.inl (by simp [collect_pid_entries, hk])
        | true =>
          by_cases he : strEndsWith str ".pid" = true
          · exact Or.inr ⟨rfl, he, by simp [collect_pid_entries, hk, he]⟩
          · exact Or.inl (by simp [collect_pid_entries, hk, he])
      have hmem : (∃ i k2, (OsStr.invalid i, k2) ∈ (OsStr.valid str, k) :: rest ∧
          isFile k2 = true) ↔ (∃ i k2, (OsStr.invalid i, k2) ∈ rest ∧ isFile k2 = true) := by
        constructor
        · rintro ⟨j, k2, hm, hk2⟩
          rcases List.mem_cons.mp hm with h | h
          · injection h with h1 h2
            cases h1
          · exact ⟨j, k2, h, hk2⟩
        · rintro ⟨j, k2, hm, hk2⟩
          exact ⟨j, k2, List.mem_cons_of_mem _ hm, hk2⟩
      rcases hshape with hs | ⟨_, _, hs⟩
      · rw [hs, hmem]
        exact ih
      · constructor
        · rw [hs, hmem]
          cases hc : collect_pid_entries rest with
          | ok ds =>
            simp only []
            constructor
            · intro h
              cases h
            · intro h
              have := (ih.1.mpr h)
              rw [hc] at this
              cases this
          | error e2 =>
            have he2 := ih.2 e2 hc
            subst he2
            simp only []
            constructor
            · intro
              exact ih.1.mp hc
            · intro
              trivial
        · intro e h
          rw [hs] at h
          cases hc : collect_pid_entries rest with
          | ok ds =>
            rw [hc] at h
            cases h
          | error e2 =>
            rw [hc] at h
            injection h with h1
            subst h1
            exact ih.2 e2 hc

/-- A directory holding one FIFO whose name is invalid UTF-8. -/
def stInvalidFifo : St :=
  { dirExists := true
    entries := [(.invalid 0, .fifo "")]
    trace := [] }

/-- Counterexample to C10 as stated: a directory entry whose name is invalid
UTF-8 but which is a FIFO, not a regular file, does not make the enumeration
panic - the && short-circuits after is_file() and list_daemons succeeds with
an empty listing. -/
theorem C10_counterexample :
    ((OsStr.invalid 0, EntryKind.fifo "") ∈ stInvalidFifo.entries) ∧
    (list_daemons envOk stInvalidFifo).1 = .ok [] := by
  exact ⟨by simp [stInvalidFifo], rfl⟩

/-- C10 amended: provided the base directory can be ensured, list_daemons
reaches the panic branch (the unwrap of to_str, modelled as Err.panicked)
exactly when some regular-file entry has an invalid UTF-8 name; entries of
other kinds with invalid names are skipped without reaching the unwrap. -/
theorem C10_list_panic (env : Env) (s : St)
    (hok : s.dirExists = true ∨ env.mkdirFails = false) :
    (list_daemons env s).1 = .error .panicked ↔
      ∃ i k, (OsStr.invalid i, k) ∈ s.entries ∧ isFile k = true := by
  obtain ⟨s1, h1, hent⟩ := create_dir_all_cases env s hok
  unfold list_daemons ensure_pipe_dir_exists
  rw [M.bind_ok _ _ env s () s1 h1]
  show (match collect_pid_entries s1.entries with
    | .ok ds => ((.ok ds : Except Err (List String)), s1)
    | .error e => (.error e, s1)).1 = .error .panicked ↔ _
  rw [hent]
  cases hc : collect_pid_entries s.entries with
  | ok ds =>
    simp only []
    constructor
    · intro h
      cases h
    · rintro ⟨i, k, hm, hk⟩
      have := (collect_pid_entries_panic_iff s.entries).1.mpr ⟨i, k, hm, hk⟩
      rw [hc] at this
      cases this
  | error e =>
    have he := (collect_pid_entries_panic_iff s.entries).2 e hc
    subst he
    simp only []
    constructor
    · intro
      exact (collect_pid_entries_panic_iff s.entries).1.mp hc
    · intro
      trivial

/-- A directory holding one regular file whose name is invalid UTF-8. -/
def stInvalidFile : St :=
  { dirExists := true
    entries := [(.invalid 0, .file "x")]
    trace := [] }

/-- Witness for C10 amended at a concrete input: one regular-file entry with
an invalid UTF-8 name makes list_daemons panic. -/
theorem C10_witness : (list_daemons envOk stInvalidFile).1 = .error .panicked :=
  (C10_list_panic envOk stInvalidFile (Or.inl rfl)).mpr
    ⟨0, .file "x", by simp [stInvalidFile], rfl⟩

theorem create_dir_all_trace (env : Env) (s : St) :
    (create_dir_all env s).2.trace = s.trace ∨
    (create_dir_all env s).2.trace = s.trace ++ [Ev.mkdirDone] := by
  unfold create_dir_all
  cases hd : s.dirExists with
  | true => simp
  | false => cases hm : env.mkdirFails <;> simp [trace_emitEv]

theorem create_fifo_trace (env : Env) (s : St) (p : String) :
    (create_fifo p env s).2.trace = s.trace ∨
    (create_fifo p env s).2.trace = s.trace ++ [Ev.fifoCreated p] := by
  unfold create_fifo
  cases hd : s.dirExists with
  | false => simp
  | true =>
    cases hf : (findEntry s.entries (.valid p)).isSome with
    | true => simp [hf]
    | false => cases hm : env.mkfifoFails p <;> simp [hf, trace_emitEv]

theorem trace_carry (s t : St) (e : Ev) (ev : Ev)
    (hne : ev ≠ e)
    (h : t.trace = s.trace ∨ t.trace = s.trace ++ [e]) :
    ev ∈ t.trace → ev ∈ s.trace := by
  intro hm
  rcases h with h | h
  · rw [h] at hm
    exact hm
  · rw [h] at hm
    rcases List.mem_append.mp hm with h2 | h2
    · exact h2
    · simp at h2
      exact absurd h2 hne

theorem keeps_bind {α β : Type} (x : M α) (f : α → M β) (ev : Ev)
    (hx : ∀ env s, ev ∈ (x env s).2.trace → ev ∈ s.trace)
    (hf : ∀ a env s, ev ∈ (f a env s).2.trace → ev ∈ s.trace) :
    ∀ env s, ev ∈ (M.bind x f env s).2.trace → ev ∈ s.trace := by
  intro env s hm
  unfold M.bind at hm
  rcases hx2 : x env s with ⟨r, s1⟩
  rw [hx2] at hm
  cases r with
  | ok a =>
    have h2 := hf a env s1 hm
    exact hx env s (by rw [hx2]; exact h2)
  | error e =>
    exact hx env s (by rw [hx2]; exact hm)

theorem create_dir_all_keeps (ev : Ev) (h : ev ≠ Ev.mkdirDone) :
    ∀ env s, ev ∈ (create_dir_all env s).2.trace → ev ∈ s.trace :=
  fun env s => trace_carry s _ Ev.mkdirDone ev h (create_dir_all_trace env s)

theorem create_fifo_keeps (p : String) (ev : Ev) (h : ∀ q, ev ≠ Ev.fifoCreated q) :
    ∀ env s, ev ∈ (create_fifo p env s).2.trace → ev ∈ s.trace :=
  fun env s => trace_carry s _ (Ev.fifoCreated p) ev (h p) (create_fifo_trace env s p)

theorem mpure_keeps {α : Type} (a : α) (ev : Ev) :
    ∀ env s, ev ∈ (M.pure a env s).2.trace → ev ∈ s.trace :=
  fun _ _ h => h

theorem create_files_keeps_event (env : Env) (s : St) (name : String) (ev : Ev)
    (hnot1 : ev ≠ Ev.mkdirDone)
    (hnot2 : ∀ p, ev ≠ Ev.fifoCreated p) :
    ev ∈ (create_files name env s).2.trace → ev ∈ s.trace :=
  keeps_bind ensure_pipe_dir_exists _ ev (create_dir_all_keeps ev hnot1)
    (fun _ => keeps_bind (create_fifo (stdin_path name)) _ ev (create_fifo_keeps _ ev hnot2)
      (fun _ => keeps_bind (create_fifo (stdout_path name)) _ ev (create_fifo_keeps _ ev hnot2)
        (fun _ => keeps_bind (create_fifo (stderr_path name)) _ ev (create_fifo_keeps _ ev hnot2)
          (fun _ => mpure_keeps () ev)))) env s

theorem create_fifo_ok2 (env : Env) (s : St) (p : String)
    (hd : s.dirExists = true)
    (hn : findEntry s.entries (.valid p) = none)
    (hm : env.mkfifoFails p = false) :
    create_fifo p env s =
      (.ok (), ⟨s.dirExists, s.entries ++ [(.valid p, .fifo "")],
        s.trace ++ [.fifoCreated p]⟩) := by
  unfold create_fifo
  simp [hd, hn, hm, emitEv]

theorem openFile_ok2 (env : Env) (s : St) (p : String) (m : OpenMode) (k : EntryKind)
    (hd : s.dirExists = true)
    (hf : findEntry s.entries (.valid p) = some k)
    (ho : env.openFails p = false) :
    openFile p m env s = (.ok p, ⟨s.dirExists, s.entries, s.trace ++ [.opened p m]⟩) :=
  openFile_ok env s p m k hd hf ho

theorem daemonize_start_ok2 (env : Env) (s : St) (p : String)
    (hd : s.dirExists = true)
    (hdz : env.daemonizeFails = false) :
    daemonize_start p env s =
      (.ok (), ⟨s.dirExists, setEntry s.entries (.valid p) (.file (toString env.daemonPid)),
        s.trace ++ [.pidWritten p env.daemonPid]⟩) := by
  unfold daemonize_start
  simp [hd, hdz, emitEv]

theorem pty_open_ok (env : Env) (s : St) (hpt : env.ptyFails = false) :
    pty_open env s = (.ok (), s) := by
  unfold pty_open
  simp [hpt]

theorem spawn_child_ok (env : Env) (s : St) (cmd : String) (args : List String)
    (hsp : env.spawnFails = false) :
    spawn_child cmd args env s =
      (.ok (), ⟨s.dirExists, s.entries, s.trace ++ [.spawned cmd args]⟩) := by
  unfold spawn_child
  simp [hsp, emitEv]

/-- A directory in which the stdout FIFO path of "n" is already taken. -/
def stPartial : St :=
  { dirExists := true
    entries := [(.valid "n_stdout", .fifo "")]
    trace := [] }

/-- Counterexample to C8 as stated: when the stdout FIFO path already exists,
create fails (on the second mkfifo), yet the stdin FIFO created by the first
mkfifo remains - it is not true that no FIFO of this create remains after a
failing create. -/
theorem C8_counterexample :
    (create "n" "cmd" [] envOk stPartial).1 = .error (.alreadyExists (stdout_path "n")) ∧
    findEntry (create "n" "cmd" [] envOk stPartial).2.entries (.valid (stdin_path "n")) =
      some (.fifo "") := ⟨rfl, rfl⟩

/-- C8 amended: create fails overall when the base-directory creation or any
one FIFO creation fails, and in that case neither the PID file write nor the
daemon spawn has happened (though FIFOs created before the failing step may
remain - there is no rollback); on success all three FIFOs are created before
the daemon-side opens, which precede the PID file write, which precedes the
spawn, as the resulting trace shows. -/
theorem C8_create (env : Env) (s : St) (name cmd : String) (args : List String) :
    (∀ e s1, create_files name env s = (.error e, s1) →
      create name cmd args env s = (.error e, s1) ∧
      (∀ p pid, Ev.pidWritten p pid ∈ s1.trace → Ev.pidWritten p pid ∈ s.trace) ∧
      (∀ c a2, Ev.spawned c a2 ∈ s1.trace → Ev.spawned c a2 ∈ s.trace)) ∧
    (s.dirExists = true →
      findEntry s.entries (.valid (stdin_path name)) = none →
      findEntry s.entries (.valid (stdout_path name)) = none →
      findEntry s.entries (.valid (stderr_path name)) = none →
      env.mkfifoFails (stdin_path name) = false →
      env.mkfifoFails (stdout_path name) = false →
      env.mkfifoFails (stderr_path name) = false →
      env.openFails (stdin_path name) = false →
      env.openFails (stdout_path name) = false →
      env.openFails (stderr_path name) = false →
      env.daemonizeFails = false →
      env.ptyFails = false →
      env.spawnFails = false →
      (create name cmd args env s).1 = .ok () ∧
      (create name cmd args env s).2.trace = s.trace ++
        [.fifoCreated (stdin_path name), .fifoCreated (stdout_path name),
         .fifoCreated (stderr_path name),
         .opened (stdin_path name) ⟨true, true, false, false⟩,
         .opened (stdout_path name) ⟨true, true, true, false⟩,
         .opened (stderr_path name) ⟨true, true, true, false⟩,
         .pidWritten (pid_file_path name) env.daemonPid,
         .spawned cmd args]) := by
  constructor
  · intro e s1 hcf
    refine ⟨?_, ?_, ?_⟩
    · unfold create
      rw [M.bind_err _ _ env s e s1 hcf]
    · intro p pid hmem
      exact create_files_keeps_event env s name (Ev.pidWritten p pid) (by simp)
        (by intro q; simp) (by rw [hcf] at *; exact hmem)
    · intro c a2 hmem
      exact create_files_keeps_event env s name (Ev.spawned c a2) (by simp)
        (by intro q; simp) (by rw [hcf] at *; exact hmem)
  · intro hd hn1 hn2 hn3 hm1 hm2 hm3 ho1 ho2 ho3 hdz hpt hsp
    have cda : create_dir_all env s = (.ok (), s) := by
      unfold create_dir_all
      simp [hd]
    have e1 := create_fifo_ok2 env s (stdin_path name) hd hn1 hm1
    have g2 : findEntry (s.entries ++ [(.valid (stdin_path name), .fifo "")])
        (.valid (stdout_path name)) = none := by
      rw [findEntry_append_single]
      simp [hn2, stdin_ne_stdout name]
    have e2 := create_fifo_ok2 env
      ⟨s.dirExists, s.entries ++ [(.valid (stdin_path name), .fifo "")],
        s.trace ++ [.fifoCreated (stdin_path name)]⟩
      (stdout_path name) hd g2 hm2
    have g3 : findEntry (s.entries ++ [(.valid (stdin_path name), .fifo "")]
        ++ [(.valid (stdout_path name), .fifo "")]) (.valid (stderr_path name)) = none := by
      rw [findEntry_append_single, findEntry_append_single]
      simp [hn3, stdin_ne_stderr name, stdout_ne_stderr name]
    have e3 := create_fifo_ok2 env
      ⟨s.dirExists, s.entries ++ [(.valid (stdin_path name), .fifo "")]
        ++ [(.valid (stdout_path name), .fifo "")],
        s.trace ++ [.fifoCreated (stdin_path name)] ++ [.fifoCreated (stdout_path name)]⟩
      (stderr_path name) hd g3 hm3
    have f1 : findEntry (s.entries ++ [(.valid (stdin_path name), .fifo "")]
        ++ [(.valid (stdout_path name), .fifo "")] ++ [(.valid (stderr_path name), .fifo "")])
        (.valid (stdin_path name)) = some (.fifo "") := by
      rw [findEntry_append_single, findEntry_append_single, findEntry_append_single]
      simp [hn1]
    have f2 : findEntry (s.entries ++ [(.valid (stdin_path name), .fifo "")]
        ++ [(.valid (stdout_path name), .fifo "")] ++ [(.valid (stderr_path name), .fifo "")])
        (.valid (stdout_path name)) = some (.fifo "") := by
      rw [findEntry_append_single, findEntry_append_single, findEntry_append_single]
      simp [hn2, stdin_ne_stdout name]
    have f3 : findEntry (s.entries ++ [(.valid (stdin_path name), .fifo "")]
        ++ [(.valid (stdout_path name), .fifo "")] ++ [(.valid (stderr_path name), .fifo "")])
        (.valid (stderr_path name)) = some (.fifo "") := by
      rw [findEntry_append_single, findEntry_append_single, findEntry_append_single]
      simp [hn3, stdin_ne_stderr name, stdout_ne_stderr name]
    have o1 := openFile_ok2 env
      ⟨s.dirExists, s.entries ++ [(.valid (stdin_path name), .fifo "")]
        ++ [(.valid (stdout_path name), .fifo "")] ++ [(.valid (stderr_path name), .fifo "")],
        s.trace ++ [.fifoCreated (stdin_path name)] ++ [.fifoCreated (stdout_path name)]
          ++ [.fifoCreated (stderr_path name)]⟩
      (stdin_path name) ⟨true, true, false, false⟩ (.fifo "") hd f1 ho1
    have o2 := openFile_ok2 env
      ⟨s.dirExists, s.entries ++ [(.valid (stdin_path name), .fifo "")]
        ++ [(.valid (stdout_path name), .fifo "")] ++ [(.valid (stderr_path name), .fifo "")],
        s.trace ++ [.fifoCreated (stdin_path name)] ++ [.fifoCreated (stdout_path name)]
          ++ [.fifoCreated (stderr_path name)]
          ++ [.opened (stdin_path name) ⟨true, true, false, false⟩]⟩
      (stdout_path name) ⟨true, true, true, false⟩ (.fifo "") hd f2 ho2
    have o3 := openFile_ok2 env
      ⟨s.dirExists, s.entries ++ [(.valid (stdin_path name), .fifo "")]
        ++ [(.valid (stdout_path name), .fifo "")] ++ [(.valid (stderr_path name), .fifo "")],
        s.trace ++ [.fifoCreated (stdin_path name)] ++ [.fifoCreated (stdout_path name)]
          ++ [.fifoCreated (stderr_path name)]
          ++ [.opened (stdin_path name) ⟨true, true, false, false⟩]
          ++ [.opened (stdout_path name) ⟨true, true, true, false⟩]⟩
      (stderr_path name) ⟨true, true, true, false⟩ (.fifo "") hd f3 ho3
    have d1 := daemonize_start_ok2 env
      ⟨s.dirExists, s.entries ++ [(.valid (stdin_path name), .fifo "")]
        ++ [(.valid (stdout_path name), .fifo "")] ++ [(.valid (stderr_path name), .fifo "")],
        s.trace ++ [.fifoCreated (stdin_path name)] ++ [.fifoCreated (stdout_path name)]
          ++ [.fifoCreated (stderr_path name)]
          ++ [.opened (stdin_path name) ⟨true, true, false, false⟩]
          ++ [.opened (stdout_path name) ⟨true, true, true, false⟩]
          ++ [.opened (stderr_path name) ⟨true, true, true, false⟩]⟩
      (pid_file_path name) hd hdz
    have p1 := pty_open_ok env
      ⟨s.dirExists, setEntry (s.entries ++ [(.valid (stdin_path name), .fifo "")]
        ++ [(.valid (stdout_path name), .fifo "")] ++ [(.valid (stderr_path name), .fifo "")])
        (.valid (pid_file_path name)) (.file (toString env.daemonPid)),
        s.trace ++ [.fifoCreated (stdin_path name)] ++ [.fifoCreated (stdout_path name)]
          ++ [.fifoCreated (stderr_path name)]
          ++ [.opened (stdin_path name) ⟨true, true, false, false⟩]
          ++ [.opened (stdout_path name) ⟨true, true, true, false⟩]
          ++ [.opened (stderr_path name) ⟨true, true, true, false⟩]
          ++ [.pidWritten (pid_file_path name) env.daemonPid]⟩ hpt
    have s1 := spawn_child_ok env
      ⟨s.dirExists, setEntry (s.entries ++ [(.valid (stdin_path name), .fifo "")]
        ++ [(.valid (stdout_path name), .fifo "")] ++ [(.valid (stderr_path name), .fifo "")])
        (.valid (pid_file_path name)) (.file (toString env.daemonPid)),
        s.trace ++ [.fifoCreated (stdin_path name)] ++ [.fifoCreated (stdout_path name)]
          ++ [.fifoCreated (stderr_path name)]
          ++ [.opened (stdin_path name) ⟨true, true, false, false⟩]
          ++ [.opened (stdout_path name) ⟨true, true, true, false⟩]
          ++ [.opened (stderr_path name) ⟨true, true, true, false⟩]
          ++ [.pidWritten (pid_file_path name) env.daemonPid]⟩ cmd args hsp
    unfold create create_files get_files start_daemon ensure_pipe_dir_exists
    simp only [M.bind, M.pure, cda, e1, e2, e3, o1, o2, o3, d1, p1, s1]
    refine ⟨by trivial, ?_⟩
    simp

/-- Witness for C8 amended at a concrete input: creating daemon "m" in an
empty directory succeeds with the expected event order. -/
theorem C8_witness :
    (create "m" "cat" [] envOk ⟨true, [], []⟩).1 = .ok () ∧
    (create "m" "cat" [] envOk ⟨true, [], []⟩).2.trace =
      [.fifoCreated "m_stdin", .fifoCreated "m_stdout", .fifoCreated "m_stderr",
       .opened "m_stdin" ⟨true, true, false, false⟩,
       .opened "m_stdout" ⟨true, true, true, false⟩,
       .opened "m_stderr" ⟨true, true, true, false⟩,
       .pidWritten "m.pid" 42, .spawned "cat" []] := by
  have h := (C8_create envOk ⟨true, [], []⟩ "m" "cat" []).2 rfl rfl rfl rfl rfl rfl rfl
    rfl rfl rfl rfl rfl rfl
  refine ⟨h.1, ?_⟩
  rw [h.2]
  rfl

/-- C9: on the daemon side (get_files), the stdin FIFO is opened read+write
(not read-only) and the stdout and stderr FIFOs are opened
read+write+append, in that order, as the recorded open events show. -/
theorem C9_get_files (env : Env) (s : St) (name : String) (k1 k2 k3 : EntryKind)
    (hd : s.dirExists = true)
    (h1 : findEntry s.entries (.valid (stdin_path name)) = some k1)
    (h2 : findEntry s.entries (.valid (stdout_path name)) = some k2)
    (h3 : findEntry s.entries (.valid (stderr_path name)) = some k3)
    (ho1 : env.openFails (stdin_path name) = false)
    (ho2 : env.openFails (stdout_path name) = false)
    (ho3 : env.openFails (stderr_path name) = false) :
    get_files name env s =
      (.ok (stdin_path name, stdout_path name, stderr_path name),
        ⟨s.dirExists, s.entries,
          s.trace ++ [.opened (stdin_path name) ⟨true, true, false, false⟩,
            .opened (stdout_path name) ⟨true, true, true, false⟩,
            .opened (stderr_path name) ⟨true, true, true, false⟩]⟩) := by
  have o1 := openFile_ok2 env s (stdin_path name) ⟨true, true, false, false⟩ k1 hd h1 ho1
  have o2 := openFile_ok2 env
    ⟨s.dirExists, s.entries, s.trace ++ [.opened (stdin_path name) ⟨true, true, false, false⟩]⟩
    (stdout_path name) ⟨true, true, true, false⟩ k2 hd h2 ho2
  have o3 := openFile_ok2 env
    ⟨s.dirExists, s.entries, s.trace ++ [.opened (stdin_path name) ⟨true, true, false, false⟩]
      ++ [.opened (stdout_path name) ⟨true, true, true, false⟩]⟩
    (stderr_path name) ⟨true, true, true, false⟩ k3 hd h3 ho3
  unfold get_files
  simp only [M.bind, M.pure, o1, o2, o3]
  simp

/-- Witness for C9 at a concrete input: the daemon-side opens for "n" record
read+write for stdin and read+write+append for stdout and stderr. -/
theorem C9_witness :
    (get_files "n" envOk stOk).1 = .ok ("n_stdin", "n_stdout", "n_stderr") ∧
    (get_files "n" envOk stOk).2.trace =
      [.opened "n_stdin" ⟨true, true, false, false⟩,
       .opened "n_stdout" ⟨true, true, true, false⟩,
       .opened "n_stderr" ⟨true, true, true, false⟩] := by
  have h := C9_get_files envOk stOk "n" (.fifo "") (.fifo "hello") (.fifo "")
    rfl rfl rfl rfl rfl rfl rfl
  constructor
  · rw [h]
    rfl
  · rw [h]
    rfl

end Attyvo
